import Mathlib

/-!
Verification of the run-editing and comparison-derivation engine of the
LiveSplit-gtk repository (src/ui/editor/{model.rs, context.rs, table.rs}).

The durations handled by the code are values of the `time` crate's
`Duration` type: a signed quantity of nanoseconds bounded by
`i64::MIN` seconds minus 999999999 ns and `i64::MAX` seconds plus
999999999 ns.  We embed such a duration as an unbounded `Int` measured in
nanoseconds together with the explicit saturation bounds where the code
performs `saturating_sub`.  The `livesplit_core` collaborator types
(`Segment`, `Run`, `TimeSpan`, `Time`) are external to the repository and
are embedded by the fields the repository actually reads and writes.
Time formatting (`TimeFormat`, not present in the sources) is treated as
an opaque function parameter: every theorem below is universally
quantified over the two formatting functions the code threads through.
-/

namespace TuxSplit

/-- `TimingMethod` from livesplit-core: real time or game time. -/
inductive TimingMethod where
  | realTime
  | gameTime
deriving DecidableEq

/-- Embeds livesplit-core's `Time`: one optional duration (in nanoseconds)
per timing method. -/
structure LSTime where
  realTime : Option Int := none
  gameTime : Option Int := none
deriving DecidableEq

/-- Reads the component of a `Time` for a timing method
(`Time`'s `[method]` indexing in livesplit-core). -/
def LSTime.get : LSTime → TimingMethod → Option Int
  | t, .realTime => t.realTime
  | t, .gameTime => t.gameTime

/-- Embeds `Time::with_timing_method`: replaces one component. -/
def LSTime.with_timing_method : LSTime → TimingMethod → Option Int → LSTime
  | t, .realTime, v => { t with realTime := v }
  | t, .gameTime, v => { t with gameTime := v }

/-- Smallest representable `time::Duration`, in nanoseconds:
`i64::MIN` seconds and −999999999 ns. -/
def durMin : Int := -(2 ^ 63) * 1000000000 - 999999999

/-- Largest representable `time::Duration`, in nanoseconds:
`i64::MAX` seconds and 999999999 ns. -/
def durMax : Int := (2 ^ 63 - 1) * 1000000000 + 999999999

/-- Embeds `time::Duration::saturating_sub`: the exact signed difference,
saturating at `Duration::MIN` / `Duration::MAX` on overflow.  Note that the
type is signed, so a negative difference is returned as is, not clamped to
zero. -/
def satSub (a b : Int) : Int := max durMin (min durMax (a - b))

/-- Embeds `TimeSpan::from_milliseconds`, expressed in nanoseconds. -/
def fromMilliseconds (ms : Int) : Int := ms * 1000000

/-- Embeds the fields of livesplit-core's `Segment` that the repository
reads or writes: the segment name, the "Personal Best" and
"Best Segments" entries of the per-comparison time table, the
`best_segment_time` field, and (modelled from the spec, §4.2, since
`RunEditor::set_segment_time` lives in the external collaborator) a
per-method segment-time field written by the segment-time edit. -/
structure Segment where
  name : String := ""
  personalBest : LSTime := {}
  bestSegments : LSTime := {}
  bestSegmentTime : LSTime := {}
  segmentTime : LSTime := {}
deriving DecidableEq

/-- The segment used when an index is looked up defensively. -/
def defaultSegment : Segment := {}

/-- Embeds `Segment::comparison_timing_method(comparison, method)` for the
two comparison names the repository uses. -/
def Segment.comparison_timing_method (s : Segment) (comparison : String)
    (m : TimingMethod) : Option Int :=
  if comparison = "Personal Best" then s.personalBest.get m
  else if comparison = "Best Segments" then s.bestSegments.get m
  else none

/-- The duration the backward scans compare against zero:
`comparison_timing_method("Personal Best", m).unwrap_or_default().to_duration()`. -/
def pb_dur (m : TimingMethod) (s : Segment) : Int :=
  (s.comparison_timing_method "Personal Best" m).getD 0

/-- The duration the gold scan compares against zero:
`comparison_timing_method("Best Segments", m).unwrap_or_default().to_duration()`. -/
def gold_dur (m : TimingMethod) (s : Segment) : Int :=
  (s.comparison_timing_method "Best Segments" m).getD 0

/-- Embeds the loop `for k in (0..index).rev() { if p k { break } }`:
the largest `k < index` satisfying `p`, scanning downward. -/
def scan_back (p : Nat → Bool) : Nat → Option Nat
  | 0 => none
  | k + 1 => if p k then some k else scan_back p k

/-- Embeds the first backward scan of `compute_row_values` (model.rs):
the nearest earlier index whose "Personal Best" time is non-zero
(absent times default to zero and are skipped). -/
def last_non_skipped (m : TimingMethod) (segments : List Segment)
    (index : Nat) : Option Nat :=
  scan_back (fun k => decide (pb_dur m (segments.getD k defaultSegment) ≠ 0)) index

/-- Embeds the second backward scan of `compute_row_values` (model.rs):
the nearest earlier index whose "Best Segments" time is non-zero. -/
def last_gold (m : TimingMethod) (segments : List Segment)
    (index : Nat) : Option Nat :=
  scan_back (fun k => decide (gold_dur m (segments.getD k defaultSegment) ≠ 0)) index

/-- Embeds `previous_comparison_duration` of `compute_row_values`
(model.rs line 132): the "Personal Best" duration at `last_non_skipped`,
zero if the scan found nothing. -/
def prev_reference (m : TimingMethod) (segments : List Segment)
    (index : Nat) : Int :=
  match last_non_skipped m segments index with
  | none => 0
  | some k => pb_dur m (segments.getD k defaultSegment)

/-- The "Best Segments" duration at `last_gold`, zero if the scan found
nothing (model.rs lines 156-163). -/
def prev_gold (m : TimingMethod) (segments : List Segment)
    (index : Nat) : Int :=
  match last_gold m segments index with
  | none => 0
  | some k => gold_dur m (segments.getD k defaultSegment)

/-- Embeds the `best_delta` value of `compute_row_values` (model.rs lines
152-163): the segment's "Best Segments" duration (zero when absent) minus
`prev_gold` with `saturating_sub`. -/
def best_delta (m : TimingMethod) (segments : List Segment) (index : Nat)
    (segment : Segment) : Int :=
  satSub (gold_dur m segment) (prev_gold m segments index)

/-- Embeds `compute_row_values` (model.rs lines 93-167).  The two
formatting functions stand for `TimeFormat::format_time_span` and
`TimeFormat::format_duration`; the result is the tuple
(name, split_time, segment_time, best). -/
def compute_row_values (m : TimingMethod) (fmt_span fmt_dur : Int → String)
    (segments : List Segment) (index : Nat) (segment : Segment) :
    String × String × String × String :=
  (segment.name,
   (match segment.comparison_timing_method "Personal Best" m with
    | none => ""
    | some t => fmt_span t),
   (match segment.comparison_timing_method "Personal Best" m with
    | none => ""
    | some t => fmt_dur (satSub t (prev_reference m segments index))),
   fmt_dur (best_delta m segments index segment))

/-- Embeds the `SegmentRow` GObject (ui/editor/row.rs, declared by its
users in model.rs and table.rs): an index plus the four displayed
strings; the setters used by `refresh_from_timer` update the four string
properties and leave the index untouched. -/
structure SegmentRow where
  index : Nat
  name : String
  split_time : String
  segment_time : String
  best : String
deriving DecidableEq

/-- The value quadruple displayed by a row (name, split time, segment
time, best); the row index is UI identity, not a displayed value. -/
def row_values (r : SegmentRow) : String × String × String × String :=
  (r.name, r.split_time, r.segment_time, r.best)

/-- The loop body of `build_from_timer` (model.rs lines 46-52): walks the
remaining segments, appending a freshly constructed row per segment. -/
def build_go (m : TimingMethod) (fmt_span fmt_dur : Int → String)
    (segments : List Segment) : List Segment → Nat → List SegmentRow
  | [], _ => []
  | s :: ss, i =>
    (match compute_row_values m fmt_span fmt_dur segments i s with
     | (name, split_time, segment_time, best) =>
       SegmentRow.mk i name split_time segment_time best)
      :: build_go m fmt_span fmt_dur segments ss (i + 1)

/-- Embeds `build_from_timer` (model.rs lines 40-53): clears the store and
recreates one row per segment. -/
def build_from_timer (m : TimingMethod) (fmt_span fmt_dur : Int → String)
    (segments : List Segment) : List SegmentRow :=
  build_go m fmt_span fmt_dur segments segments 0

/-- The loop body of `refresh_from_timer` (model.rs lines 70-83): walks
the existing rows; for each row whose index is still within the segment
list it recomputes the four displayed values in place, otherwise it leaves
the row untouched. -/
def refresh_go (m : TimingMethod) (fmt_span fmt_dur : Int → String)
    (segments : List Segment) : List SegmentRow → Nat → List SegmentRow
  | [], _ => []
  | r :: rs, i =>
    (match segments.get? i with
     | some s =>
       match compute_row_values m fmt_span fmt_dur segments i s with
       | (name, split_time, segment_time, best) =>
         { r with
            name := name, split_time := split_time,
            segment_time := segment_time, best := best }
     | none => r)
      :: refresh_go m fmt_span fmt_dur segments rs (i + 1)

/-- Embeds `refresh_from_timer` (model.rs lines 58-84): rebuilds when the
row count differs from the segment count, otherwise updates each row in
place. -/
def refresh_from_timer (m : TimingMethod) (fmt_span fmt_dur : Int → String)
    (segments : List Segment) (rows : List SegmentRow) : List SegmentRow :=
  if rows.length ≠ segments.length then
    build_from_timer m fmt_span fmt_dur segments
  else
    refresh_go m fmt_span fmt_dur segments rows 0

/-- Embeds livesplit-core's `Run` as the repository observes it: metadata
plus the ordered segment list. -/
structure Run where
  gameName : String := ""
  categoryName : String := ""
  segments : List Segment := []
deriving DecidableEq

/-- Replaces segment `i` of a run with `f` of it, as the Rust
`run.segments_mut()[index]` / `run.segment_mut(index)` mutations do. -/
def update_segment (r : Run) (i : Nat) (f : Segment → Segment) : Run :=
  { r with segments := r.segments.set i (f (r.segments.getD i defaultSegment)) }

/-- Embeds `Timer::set_run` of the livesplit-core collaborator as the
repository relies on it: the swap fails (returning the old state) only
when the new run has no segments, otherwise the stored run is replaced. -/
def timer_set_run (new : Run) : Option Run :=
  if new.segments.isEmpty then none else some new

/-- Embeds `imp::EditorContext::method` (context.rs lines 47-52): decodes
the stored cell, `1` meaning game time and anything else real time. -/
def imp_method (cell : Int) : TimingMethod :=
  if cell = 1 then .gameTime else .realTime

/-- Embeds `imp::EditorContext::set_method` (context.rs lines 55-60) and
the `old as i32` discriminant: real time is 0, game time is 1. -/
def method_code : TimingMethod → Int
  | .realTime => 0
  | .gameTime => 1

/-- The state of an `EditorContext`: the run held by the shared timer and
the raw timing-method cell. -/
structure CtxState where
  run : Run
  timing_method_cell : Int
deriving DecidableEq

/-- Embeds `EditorContext::timing_method`. -/
def CtxState.timing_method (c : CtxState) : TimingMethod :=
  imp_method c.timing_method_cell

/-- Embeds `EditorContext::set_timing_method` (context.rs lines 106-112):
stores the new method and emits "timing-method-changed" when the stored
discriminant changed; the second component counts the emissions. -/
def set_timing_method (cell : Int) (m : TimingMethod) : Int × Nat :=
  let old := imp_method cell
  let cell2 := method_code m
  (cell2, if method_code old ≠ cell2 then 1 else 0)

/-- Embeds `EditorContext::set_segment_name` (context.rs lines 123-139).
`try_write_ok` is the outcome of `timer.try_write()`; the Boolean result
records whether "run-changed" was emitted. -/
def set_segment_name (c : CtxState) (try_write_ok : Bool) (index : Nat)
    (name : String) : CtxState × Bool :=
  if try_write_ok = false then (c, false)
  else if c.run.segments.length ≤ index then (c, false)
  else
    ({ c with run := update_segment c.run index (fun s => { s with name := name }) },
     true)

/-- Embeds `EditorContext::set_split_time_ms` (context.rs lines 145-172):
rejects negative milliseconds, drops the edit when `try_write` fails,
treats an out-of-range index as a no-op, and otherwise writes the
"Personal Best" comparison time of segment `index` under the context's
timing method through a `RunEditor`. -/
def set_split_time_ms (c : CtxState) (try_write_ok : Bool) (index : Nat)
    (ms : Int) : CtxState × Bool :=
  if ms < 0 then (c, false)
  else if try_write_ok = false then (c, false)
  else if c.run.segments.length ≤ index then (c, false)
  else
    ({ c with
        run := update_segment c.run index (fun s =>
          { s with
              personalBest := s.personalBest.with_timing_method c.timing_method
                (some (fromMilliseconds ms)) }) },
     true)

/-- Embeds `EditorContext::set_segment_time_ms` (context.rs lines
178-204), with the same guards; the inner
`RunEditor::active_segment().set_segment_time` belongs to the external
collaborator and is modelled from the spec (§4.2: it writes the segment
time of the selected segment under the active method). -/
def set_segment_time_ms (c : CtxState) (try_write_ok : Bool) (index : Nat)
    (ms : Int) : CtxState × Bool :=
  if ms < 0 then (c, false)
  else if try_write_ok = false then (c, false)
  else if c.run.segments.length ≤ index then (c, false)
  else
    ({ c with
        run := update_segment c.run index (fun s =>
          { s with
              segmentTime := s.segmentTime.with_timing_method c.timing_method
                (some (fromMilliseconds ms)) }) },
     true)

/-- Embeds `EditorContext::set_best_time_ms` (context.rs lines 210-235):
same guards; writes the segment's `best_segment_time` field through
`Time::with_timing_method`. -/
def set_best_time_ms (c : CtxState) (try_write_ok : Bool) (index : Nat)
    (ms : Int) : CtxState × Bool :=
  if ms < 0 then (c, false)
  else if try_write_ok = false then (c, false)
  else if c.run.segments.length ≤ index then (c, false)
  else
    ({ c with
        run := update_segment c.run index (fun s =>
          { s with
              bestSegmentTime := s.bestSegmentTime.with_timing_method c.timing_method
                (some (fromMilliseconds ms)) }) },
     true)

/-- Embeds the `connect_changed` closure of `make_name_column` (table.rs
lines 155-169).  The closure acquires the shared lock with a blocking
`write().unwrap()`, so — unlike the `EditorContext` operations — its
effect does not depend on whether another writer held the lock when the
edit was committed: it waits and then applies the edit. -/
def table_name_edit (run : Run) (index : Nat) (value : String) : Run :=
  if index < run.segments.length then
    update_segment run index (fun s => { s with name := value })
  else run

/-- Embeds the `connect_changed` closure of `make_split_time_column`
(table.rs lines 209-240).  `dur` is the outcome of `parse_hms` in
nanoseconds (`none` for a parse failure; `parse_hms` itself is not among
the sources).  The Boolean result records whether the "error" CSS class
was set (the local validation flag).  The lock is acquired with a blocking
`write().unwrap()`, so the edit is applied regardless of contention. -/
def table_split_time_edit (run : Run) (m : TimingMethod) (index : Nat)
    (dur : Option Int) : Run × Bool :=
  match dur with
  | none => (run, true)
  | some d =>
    if d < 0 then (run, true)
    else if index < run.segments.length then
      (update_segment run index (fun s =>
        { s with
            personalBest := s.personalBest.with_timing_method m
              (some (fromMilliseconds (d / 1000000))) }),
       false)
    else (run, false)

/-- Embeds the `connect_changed` closure of `make_segment_time_column`
(table.rs lines 280-313), with the external
`RunEditor::active_segment().set_segment_time` modelled from the spec as
in `set_segment_time_ms`. -/
def table_segment_time_edit (run : Run) (m : TimingMethod) (index : Nat)
    (dur : Option Int) : Run × Bool :=
  match dur with
  | none => (run, true)
  | some d =>
    if d < 0 then (run, true)
    else if index < run.segments.length then
      (update_segment run index (fun s =>
        { s with
            segmentTime := s.segmentTime.with_timing_method m
              (some (fromMilliseconds (d / 1000000))) }),
       false)
    else (run, false)

/-- Embeds the `connect_changed` closure of `make_best_segment_column`
(table.rs lines 353-384). -/
def table_best_segment_edit (run : Run) (m : TimingMethod) (index : Nat)
    (dur : Option Int) : Run × Bool :=
  match dur with
  | none => (run, true)
  | some d =>
    if d < 0 then (run, true)
    else if index < run.segments.length then
      (update_segment run index (fun s =>
        { s with
            bestSegmentTime := s.bestSegmentTime.with_timing_method m
              (some (fromMilliseconds (d / 1000000))) }),
       false)
    else (run, false)

/-- One edit staged through the segments editor's table columns. -/
inductive EditOp where
  | set_name (i : Nat) (value : String)
  | set_split (i : Nat) (dur : Option Int)
  | set_seg_time (i : Nat) (dur : Option Int)
  | set_best (i : Nat) (dur : Option Int)
deriving DecidableEq

/-- Applies one table-column edit to the run held by the shared timer. -/
def apply_edit (m : TimingMethod) (r : Run) : EditOp → Run
  | .set_name i v => table_name_edit r i v
  | .set_split i d => (table_split_time_edit r m i d).1
  | .set_seg_time i d => (table_segment_time_edit r m i d).1
  | .set_best i d => (table_best_segment_edit r m i d).1

/-- Embeds `SegmentsEditor::cancel_changes` (table.rs lines 60-66): writes
the snapshot taken at `SegmentsEditor::new` back into the timer with
`set_run`.  Returns the timer's run afterwards and `some ()` when
`set_run` succeeded, mirroring `.ok()`. -/
def cancel_changes (run_snapshot : Run) (current : Run) : Run × Option Unit :=
  match timer_set_run run_snapshot with
  | some r => (r, some ())
  | none => (current, none)

/-! ### Helper lemmas (shared) -/

theorem scan_back_eq_some_iff (p : Nat → Bool) :
    ∀ n k, scan_back p n = some k ↔
      (k < n ∧ p k = true ∧ ∀ j, k < j → j < n → p j = false) := by
  intro n
  induction n with
  | zero => intro k; simp [scan_back]
  | succ n ih =>
    intro k
    by_cases hp : p n = true
    · simp only [scan_back, hp, if_true]
      constructor
      · intro h
        obtain rfl : n = k := Option.some.inj h
        exact ⟨Nat.lt_succ_self n, hp, fun j hj1 hj2 => absurd hj2 (by omega)⟩
      · rintro ⟨hk, hpk, hall⟩
        rcases Nat.lt_succ_iff_lt_or_eq.mp hk with h | rfl
        · have := hall n h (Nat.lt_succ_self n)
          rw [hp] at this
          cases this
        · rfl
    · have hp' : p n = false := by simpa using hp
      simp only [scan_back, hp', if_false, Bool.false_eq_true]
      rw [ih k]
      constructor
      · rintro ⟨hk, hpk, hall⟩
        refine ⟨Nat.lt_succ_of_lt hk, hpk, fun j hj1 hj2 => ?_⟩
        rcases Nat.lt_succ_iff_lt_or_eq.mp hj2 with h | rfl
        · exact hall j hj1 h
        · exact hp'
      · rintro ⟨hk, hpk, hall⟩
        have hkn : k < n := by
          rcases Nat.lt_succ_iff_lt_or_eq.mp hk with h | rfl
          · exact h
          · rw [hp'] at hpk; cases hpk
        exact ⟨hkn, hpk, fun j hj1 hj2 => hall j hj1 (Nat.lt_succ_of_lt hj2)⟩

theorem scan_back_eq_none_iff (p : Nat → Bool) :
    ∀ n, scan_back p n = none ↔ ∀ j, j < n → p j = false := by
  intro n
  induction n with
  | zero => simp [scan_back]
  | succ n ih =>
    by_cases hp : p n = true
    · simp only [scan_back, hp, if_true]
      constructor
      · intro h; cases h
      · intro h
        have := h n (Nat.lt_succ_self n)
        rw [hp] at this
        cases this
    · have hp' : p n = false := by simpa using hp
      simp only [scan_back, hp', if_false, Bool.false_eq_true]
      rw [ih]
      constructor
      · intro h j hj
        rcases Nat.lt_succ_iff_lt_or_eq.mp hj with h2 | rfl
        · exact h j h2
        · exact hp'
      · intro h j hj
        exact h j (Nat.lt_succ_of_lt hj)

theorem scan_nonzero_eq_some (f : Nat → Int) (i k : Nat) (hk : k < i)
    (hfk : f k ≠ 0) (hall : ∀ j, k < j → j < i → f j = 0) :
    scan_back (fun j => decide (f j ≠ 0)) i = some k := by
  rw [scan_back_eq_some_iff]
  refine ⟨hk, by simpa using hfk, fun j hj1 hj2 => ?_⟩
  simpa using hall j hj1 hj2

theorem scan_nonzero_eq_none (f : Nat → Int) (i : Nat)
    (hall : ∀ j, j < i → f j = 0) :
    scan_back (fun j => decide (f j ≠ 0)) i = none := by
  rw [scan_back_eq_none_iff]
  intro j hj
  simpa using hall j hj

theorem durMin_nonpos : durMin ≤ 0 := by norm_num [durMin]

theorem satSub_eq_sub (a b : Int) (h1 : durMin ≤ a - b) (h2 : a - b ≤ durMax) :
    satSub a b = a - b := by
  rw [satSub, min_eq_right h2, max_eq_right h1]

theorem drop_eq_cons_get? {α : Type} :
    ∀ (l : List α) (i : Nat) (s : α) (t : List α),
      l.drop i = s :: t → l.get? i = some s ∧ l.drop (i + 1) = t := by
  intro l
  induction l with
  | nil =>
    intro i s t h
    rw [List.drop_nil] at h
    cases h
  | cons a as ih =>
    intro i s t h
    cases i with
    | zero =>
      rw [List.drop_zero] at h
      injection h with h1 h2
      subst h1; subst h2
      exact ⟨rfl, by simp⟩
    | succ n =>
      rw [List.drop_succ_cons] at h
      obtain ⟨h1, h2⟩ := ih n s t h
      exact ⟨by simpa using h1, by simpa [List.drop_succ_cons] using h2⟩

theorem refresh_go_map_row_values (m : TimingMethod)
    (fmt_span fmt_dur : Int → String) (segments : List Segment) :
    ∀ (rows : List SegmentRow) (rest : List Segment) (i : Nat),
      rows.length = rest.length → segments.drop i = rest →
      (refresh_go m fmt_span fmt_dur segments rows i).map row_values
        = (build_go m fmt_span fmt_dur segments rest i).map row_values := by
  intro rows
  induction rows with
  | nil =>
    intro rest i hlen _
    cases rest with
    | nil => rfl
    | cons s ss => simp at hlen
  | cons r rs ih =>
    intro rest i hlen hdrop
    cases rest with
    | nil => simp at hlen
    | cons s ss =>
      obtain ⟨hget, hdrop2⟩ := drop_eq_cons_get? segments i s ss hdrop
      simp only [refresh_go, build_go, hget, List.map_cons]
      rw [ih ss (i + 1) (by simpa using hlen) hdrop2]
      rcases hval : compute_row_values m fmt_span fmt_dur segments i s
        with ⟨n, st, sgt, b⟩
      simp [row_values]

/-! ### Claim theorems -/

/-- C4 (counterexample): the claim says that an edit committed while a
concurrent writer holds the lock leaves the stored Run unchanged.  The
table-column editors acquire the lock with a blocking `write().unwrap()`
(table.rs line 220), so the commit waits for the contending writer and
then applies the edit: on a one-segment run, the split-time edit changes
the stored Run, contradicting the claim. -/
theorem c4_counterexample :
    (table_split_time_edit { segments := [{ name := "A" }] } .realTime 0
        (some 1000000000)).1
      ≠ ({ segments := [{ name := "A" }] } : Run) := by decide

/-- C4 (amended): the `EditorContext` edit operations (set name, split
time, segment time, best segment time) drop the edit when `try_write`
fails: the stored Run is unchanged and no "run-changed" signal is
emitted.  (The table-column editors instead block on `write().unwrap()`
and apply the edit once the lock frees.) -/
theorem c4_amended (c : CtxState) (index : Nat) (ms : Int) (name : String) :
    set_segment_name c false index name = (c, false)
    ∧ set_split_time_ms c false index ms = (c, false)
    ∧ set_segment_time_ms c false index ms = (c, false)
    ∧ set_best_time_ms c false index ms = (c, false) := by
  refine ⟨?_, ?_, ?_, ?_⟩
  · simp [set_segment_name]
  · simp [set_split_time_ms]
  · simp [set_segment_time_ms]
  · simp [set_best_time_ms]

/-- C5: after any number of edits staged through the segments editor's
table columns, `cancel_changes` writes the snapshot captured at
`SegmentsEditor::new` back into the timer, so the timer's Run equals the
snapshot again (and `set_run` succeeds, since the snapshot has at least
one segment). -/
theorem c5_cancel_restores (run_snapshot : Run) (m : TimingMethod)
    (edits : List EditOp) (h : run_snapshot.segments ≠ []) :
    cancel_changes run_snapshot (edits.foldl (apply_edit m) run_snapshot)
      = (run_snapshot, some ()) := by
  unfold cancel_changes timer_set_run
  rcases hseg : run_snapshot.segments with _ | ⟨s, ss⟩
  · exact absurd hseg h
  · simp [hseg]

/-- C5 (witness): a two-segment snapshot, three staged edits, cancel
restores the snapshot. -/
theorem c5_cancel_restores_witness :
    cancel_changes { segments := [{ name := "A" }, { name := "B" }] }
        (([EditOp.set_name 0 "X", EditOp.set_split 1 (some 5000000000),
           EditOp.set_best 0 (some 1000000000)] : List EditOp).foldl
          (apply_edit .realTime) { segments := [{ name := "A" }, { name := "B" }] })
      = ({ segments := [{ name := "A" }, { name := "B" }] }, some ()) :=
  c5_cancel_restores { segments := [{ name := "A" }, { name := "B" }] } .realTime
    [EditOp.set_name 0 "X", EditOp.set_split 1 (some 5000000000),
     EditOp.set_best 0 (some 1000000000)] (by decide)

/-- C6: every edit operation invoked with an index at or beyond the
segment count is a silent no-op: the `EditorContext` operations return
the state unchanged without emitting "run-changed", and the table-column
editors leave the run unchanged (emitting no signal in any case). -/
theorem c6_out_of_range (c : CtxState) (try_write_ok : Bool) (index : Nat)
    (ms : Int) (name : String) (dur : Option Int)
    (h : c.run.segments.length ≤ index) :
    set_segment_name c try_write_ok index name = (c, false)
    ∧ set_split_time_ms c try_write_ok index ms = (c, false)
    ∧ set_segment_time_ms c try_write_ok index ms = (c, false)
    ∧ set_best_time_ms c try_write_ok index ms = (c, false)
    ∧ table_name_edit c.run index name = c.run
    ∧ (table_split_time_edit c.run c.timing_method index dur).1 = c.run
    ∧ (table_segment_time_edit c.run c.timing_method index dur).1 = c.run
    ∧ (table_best_segment_edit c.run c.timing_method index dur).1 = c.run := by
  have hlt : ¬ index < c.run.segments.length := by omega
  refine ⟨?_, ?_, ?_, ?_, ?_, ?_, ?_, ?_⟩
  · unfold set_segment_name
    split_ifs <;> rfl
  · unfold set_split_time_ms
    split_ifs <;> rfl
  · unfold set_segment_time_ms
    split_ifs <;> rfl
  · unfold set_best_time_ms
    split_ifs <;> rfl
  · unfold table_name_edit
    rw [if_neg hlt]
  · unfold table_split_time_edit
    rcases dur with _ | d
    · rfl
    · by_cases hd : d < 0
      · simp [hd]
      · simp [hd, hlt]
  · unfold table_segment_time_edit
    rcases dur with _ | d
    · rfl
    · by_cases hd : d < 0
      · simp [hd]
      · simp [hd, hlt]
  · unfold table_best_segment_edit
    rcases dur with _ | d
    · rfl
    · by_cases hd : d < 0
      · simp [hd]
      · simp [hd, hlt]

/-- C6 (witness): the spec scenario — index 5 of a 3-segment run is a
silent no-op for the segment-time edit (and the other operations). -/
theorem c6_out_of_range_witness :
    set_segment_time_ms
        { run := { segments := [{ name := "A" }, { name := "B" }, { name := "C" }] },
          timing_method_cell := 0 } true 5 7000
      = ({ run := { segments := [{ name := "A" }, { name := "B" }, { name := "C" }] },
           timing_method_cell := 0 }, false) :=
  (c6_out_of_range
    { run := { segments := [{ name := "A" }, { name := "B" }, { name := "C" }] },
      timing_method_cell := 0 } true 5 7000 "X" none (by decide)).2.2.1

/-- C7: every negative duration input is rejected as a no-op by the
time-setting operations: the `EditorContext` operations leave the state
unchanged and emit nothing, and the table-column editors leave the run
unchanged while setting only the "error" CSS validation flag. -/
theorem c7_negative_rejected (c : CtxState) (try_write_ok : Bool)
    (index : Nat) (ms : Int) (run : Run) (m : TimingMethod) (d : Int)
    (hms : ms < 0) (hd : d < 0) :
    set_split_time_ms c try_write_ok index ms = (c, false)
    ∧ set_segment_time_ms c try_write_ok index ms = (c, false)
    ∧ set_best_time_ms c try_write_ok index ms = (c, false)
    ∧ table_split_time_edit run m index (some d) = (run, true)
    ∧ table_segment_time_edit run m index (some d) = (run, true)
    ∧ table_best_segment_edit run m index (some d) = (run, true) := by
  refine ⟨?_, ?_, ?_, ?_, ?_, ?_⟩
  · unfold set_split_time_ms; rw [if_pos hms]
  · unfold set_segment_time_ms; rw [if_pos hms]
  · unfold set_best_time_ms; rw [if_pos hms]
  · unfold table_split_time_edit; simp [hd]
  · unfold table_segment_time_edit; simp [hd]
  · unfold table_best_segment_edit; simp [hd]

/-- C7 (witness): the spec scenario — a parsed input of −60000 ms (the
text "-1:00.000") mutates nothing. -/
theorem c7_negative_rejected_witness :
    set_split_time_ms
        { run := { segments := [{ name := "A" }] }, timing_method_cell := 0 }
        true 0 (-60000)
      = ({ run := { segments := [{ name := "A" }] }, timing_method_cell := 0 },
         false)
    ∧ table_split_time_edit { segments := [{ name := "A" }] } .realTime 0
        (some (-60000000000))
      = ({ segments := [{ name := "A" }] }, true) := by
  have h := c7_negative_rejected
    { run := { segments := [{ name := "A" }] }, timing_method_cell := 0 }
    true 0 (-60000) { segments := [{ name := "A" }] } .realTime
    (-60000000000) (by decide) (by decide)
  exact ⟨h.1, h.2.2.2.1⟩

/-- C9: `refresh_from_timer` leaves the row store holding exactly the
ordered sequence of displayed values (name, split time, segment time,
best) that `build_from_timer` produces from the same segments and timing
method: with matching counts it updates rows in place, otherwise it
rebuilds. -/
theorem c9_refresh_refines_build (m : TimingMethod)
    (fmt_span fmt_dur : Int → String) (segments : List Segment)
    (rows : List SegmentRow) :
    (refresh_from_timer m fmt_span fmt_dur segments rows).map row_values
      = (build_from_timer m fmt_span fmt_dur segments).map row_values := by
  unfold refresh_from_timer
  by_cases h : rows.length ≠ segments.length
  · rw [if_pos h]
  · rw [if_neg h]
    have hlen : rows.length = segments.length := by omega
    exact refresh_go_map_row_values m fmt_span fmt_dur segments rows segments 0
      hlen (by simp)

/-- C10: `set_timing_method` stores the requested method, so a subsequent
`timing_method()` returns it, and "timing-method-changed" is emitted
exactly once when the method differs from the previously stored one and
not at all when it is equal. -/
theorem c10_set_timing_method (cell : Int) (m : TimingMethod) :
    imp_method (set_timing_method cell m).1 = m
    ∧ (set_timing_method cell m).2 = (if imp_method cell = m then 0 else 1) := by
  constructor
  · cases m <;> simp [set_timing_method, imp_method, method_code]
  · by_cases hc : cell = 1 <;>
      cases m <;>
        simp [set_timing_method, imp_method, method_code, hc]

/-- C2: the reference duration for row `i` is the "Personal Best" time of
the nearest earlier segment whose time is present and non-zero; segments
with an absent time and segments with a time of exactly zero are both
skipped (their `unwrap_or_default` duration is zero), and the reference
defaults to the zero duration when `i = 0` or every earlier time is
absent or zero. -/
theorem c2_prev_reference_scan (m : TimingMethod) (segments : List Segment)
    (i : Nat) :
    (∀ k v, k < i →
      (segments.getD k defaultSegment).comparison_timing_method "Personal Best" m
          = some v →
      v ≠ 0 →
      (∀ j, k < j → j < i →
        ((segments.getD j defaultSegment).comparison_timing_method
            "Personal Best" m).getD 0 = 0) →
      prev_reference m segments i = v)
    ∧ ((∀ j, j < i →
        ((segments.getD j defaultSegment).comparison_timing_method
            "Personal Best" m).getD 0 = 0) →
      prev_reference m segments i = 0) := by
  constructor
  · intro k v hk hv hv0 hall
    have hfk : pb_dur m (segments.getD k defaultSegment) ≠ 0 := by
      rw [pb_dur, hv]
      simpa using hv0
    have hscan : last_non_skipped m segments i = some k :=
      scan_nonzero_eq_some (fun j => pb_dur m (segments.getD j defaultSegment))
        i k hk hfk (fun j hj1 hj2 => hall j hj1 hj2)
    rw [prev_reference, hscan]
    show pb_dur m (segments.getD k defaultSegment) = v
    rw [pb_dur, hv]
    rfl
  · intro hall
    have hscan : last_non_skipped m segments i = none :=
      scan_nonzero_eq_none (fun j => pb_dur m (segments.getD j defaultSegment))
        i (fun j hj => hall j hj)
    rw [prev_reference, hscan]

/-- C2 (witness): the spec scenario — PB times 10 s, absent, 40 s; the
reference for row 2 is segment 0's 10 s, segment 1 being skipped. -/
theorem c2_prev_reference_scan_witness :
    prev_reference .realTime
        [{ name := "A", personalBest := { realTime := some 10000000000 } },
         { name := "B" },
         { name := "C", personalBest := { realTime := some 40000000000 } }] 2
      = 10000000000 := by
  refine (c2_prev_reference_scan .realTime
      [{ name := "A", personalBest := { realTime := some 10000000000 } },
       { name := "B" },
       { name := "C", personalBest := { realTime := some 40000000000 } }] 2).1
    0 10000000000 (by decide) (by decide) (by decide) ?_
  intro j hj1 hj2
  have hj : j = 1 := by omega
  subst hj
  decide

/-- C3 (counterexample): the claim says a negative raw difference is
clamped to zero.  `time::Duration` is signed and `saturating_sub` only
saturates at the type's bounds, so with PB split times 25 s then 10 s the
segment delta of row 1 is −15 s: the displayed string (here with the
formatter instantiated to `toString`) is the formatted −15 s, not the
formatted zero duration. -/
theorem c3_counterexample :
    (([{ name := "A", personalBest := { realTime := some 25000000000 } },
       { name := "B", personalBest := { realTime := some 10000000000 } }] :
        List Segment).getD 1 defaultSegment).comparison_timing_method
        "Personal Best" .realTime = some 10000000000
    ∧ prev_reference .realTime
        [{ name := "A", personalBest := { realTime := some 25000000000 } },
         { name := "B", personalBest := { realTime := some 10000000000 } }] 1
      = 25000000000
    ∧ (compute_row_values .realTime toString toString
        [{ name := "A", personalBest := { realTime := some 25000000000 } },
         { name := "B", personalBest := { realTime := some 10000000000 } }] 1
        (([{ name := "A", personalBest := { realTime := some 25000000000 } },
           { name := "B", personalBest := { realTime := some 10000000000 } }] :
            List Segment).getD 1 defaultSegment)).2.2.1
      = toString (-15000000000 : Int)
    ∧ toString (-15000000000 : Int) ≠ toString (0 : Int)
    ∧ (10000000000 : Int) - 25000000000 < 0 := by decide

/-- C3 (amended): for a valid row whose "Personal Best" time is present,
the displayed segment delta is the formatted `saturating_sub` of the
split time and `prev_reference`; it equals the raw difference whenever
that difference fits the `time::Duration` range — in particular a
non-negative difference is reported exactly, and a negative difference is
reported as the negative value, not clamped to zero. -/
theorem c3_amended (m : TimingMethod) (fmt_span fmt_dur : Int → String)
    (segments : List Segment) (i : Nat) (segment : Segment) (t : Int)
    (hseg : segments.get? i = some segment)
    (ht : segment.comparison_timing_method "Personal Best" m = some t) :
    (compute_row_values m fmt_span fmt_dur segments i segment).2.2.1
        = fmt_dur (satSub t (prev_reference m segments i))
    ∧ (0 ≤ t - prev_reference m segments i →
        t - prev_reference m segments i ≤ durMax →
        satSub t (prev_reference m segments i) = t - prev_reference m segments i)
    ∧ (durMin ≤ t - prev_reference m segments i →
        t - prev_reference m segments i < 0 →
        satSub t (prev_reference m segments i) = t - prev_reference m segments i) := by
  refine ⟨?_, ?_, ?_⟩
  · simp [compute_row_values, ht]
  · intro h1 h2
    exact satSub_eq_sub t (prev_reference m segments i)
      (le_trans durMin_nonpos h1) h2
  · intro h1 h2
    refine satSub_eq_sub t (prev_reference m segments i) h1 ?_
    have : (0 : Int) ≤ durMax := by norm_num [durMax]
    omega

/-- C3 (witness): the spec scenario — PB times 10 s then 25 s; row 1's
delta is 25 − 10 = 15 s, displayed via the formatter. -/
theorem c3_amended_witness :
    (compute_row_values .realTime toString toString
        [{ name := "A", personalBest := { realTime := some 10000000000 } },
         { name := "B", personalBest := { realTime := some 25000000000 } }] 1
        { name := "B", personalBest := { realTime := some 25000000000 } }).2.2.1
      = toString (satSub 25000000000
          (prev_reference .realTime
            [{ name := "A", personalBest := { realTime := some 10000000000 } },
             { name := "B", personalBest := { realTime := some 25000000000 } }] 1))
    ∧ satSub 25000000000
        (prev_reference .realTime
          [{ name := "A", personalBest := { realTime := some 10000000000 } },
           { name := "B", personalBest := { realTime := some 25000000000 } }] 1)
      = 25000000000 - prev_reference .realTime
          [{ name := "A", personalBest := { realTime := some 10000000000 } },
           { name := "B", personalBest := { realTime := some 25000000000 } }] 1 := by
  have h := c3_amended .realTime toString toString
    [{ name := "A", personalBest := { realTime := some 10000000000 } },
     { name := "B", personalBest := { realTime := some 25000000000 } }] 1
    { name := "B", personalBest := { realTime := some 25000000000 } }
    25000000000 (by decide) (by decide)
  exact ⟨h.1, h.2.1 (by decide) (by decide)⟩

/-- C1 (counterexample): the claim says the best delta is floored at
zero.  With "Best Segments" times 10 s then 5 s, row 1's best delta is
`saturating_sub 5s 10s = −5 s`, not the claimed `max (5s − 10s) 0 = 0`:
`time::Duration::saturating_sub` is signed and does not clamp at zero. -/
theorem c1_counterexample :
    best_delta .realTime
        [{ name := "A", bestSegments := { realTime := some 10000000000 } },
         { name := "B", bestSegments := { realTime := some 5000000000 } }] 1
        (([{ name := "A", bestSegments := { realTime := some 10000000000 } },
           { name := "B", bestSegments := { realTime := some 5000000000 } }] :
            List Segment).getD 1 defaultSegment)
      = -5000000000
    ∧ prev_gold .realTime
        [{ name := "A", bestSegments := { realTime := some 10000000000 } },
         { name := "B", bestSegments := { realTime := some 5000000000 } }] 1
      = 10000000000
    ∧ ¬ ((-5000000000 : Int) = max (5000000000 - 10000000000) 0) := by decide

/-- C1 (amended): the displayed best value of a row is the formatted
`saturating_sub` of the segment's "Best Segments" time (zero when
absent) and `prev_gold`, where `prev_gold` is the nearest earlier
segment's non-zero "Best Segments" time under the active method (zero if
none); the difference is exact whenever it fits the `time::Duration`
range — a negative difference is displayed as negative, not floored at
zero. -/
theorem c1_amended (m : TimingMethod) (fmt_span fmt_dur : Int → String)
    (segments : List Segment) (i : Nat) (segment : Segment)
    (hseg : segments.get? i = some segment) :
    (compute_row_values m fmt_span fmt_dur segments i segment).2.2.2
        = fmt_dur (best_delta m segments i segment)
    ∧ best_delta m segments i segment
        = satSub ((segment.comparison_timing_method "Best Segments" m).getD 0)
            (prev_gold m segments i)
    ∧ (∀ k v, k < i →
        (segments.getD k defaultSegment).comparison_timing_method
            "Best Segments" m = some v →
        v ≠ 0 →
        (∀ j, k < j → j < i →
          ((segments.getD j defaultSegment).comparison_timing_method
              "Best Segments" m).getD 0 = 0) →
        prev_gold m segments i = v)
    ∧ ((∀ j, j < i →
          ((segments.getD j defaultSegment).comparison_timing_method
              "Best Segments" m).getD 0 = 0) →
        prev_gold m segments i = 0)
    ∧ (∀ a b : Int, durMin ≤ a - b → a - b ≤ durMax → satSub a b = a - b) := by
  refine ⟨rfl, rfl, ?_, ?_, fun a b h1 h2 => satSub_eq_sub a b h1 h2⟩
  · intro k v hk hv hv0 hall
    have hfk : gold_dur m (segments.getD k defaultSegment) ≠ 0 := by
      rw [gold_dur, hv]
      simpa using hv0
    have hscan : last_gold m segments i = some k :=
      scan_nonzero_eq_some (fun j => gold_dur m (segments.getD j defaultSegment))
        i k hk hfk (fun j hj1 hj2 => hall j hj1 hj2)
    rw [prev_gold, hscan]
    show gold_dur m (segments.getD k defaultSegment) = v
    rw [gold_dur, hv]
    rfl
  · intro hall
    have hscan : last_gold m segments i = none :=
      scan_nonzero_eq_none (fun j => gold_dur m (segments.getD j defaultSegment))
        i (fun j hj => hall j hj)
    rw [prev_gold, hscan]

/-- C1 (witness): "Best Segments" times 10 s then 25 s; row 1's best
delta is 25 − 10 = 15 s and `prev_gold` is 10 s. -/
theorem c1_amended_witness :
    best_delta .realTime
        [{ name := "A", bestSegments := { realTime := some 10000000000 } },
         { name := "B", bestSegments := { realTime := some 25000000000 } }] 1
        { name := "B", bestSegments := { realTime := some 25000000000 } }
      = satSub 25000000000 10000000000
    ∧ prev_gold .realTime
        [{ name := "A", bestSegments := { realTime := some 10000000000 } },
         { name := "B", bestSegments := { realTime := some 25000000000 } }] 1
      = 10000000000 := by
  have h := c1_amended .realTime toString toString
    [{ name := "A", bestSegments := { realTime := some 10000000000 } },
     { name := "B", bestSegments := { realTime := some 25000000000 } }] 1
    { name := "B", bestSegments := { realTime := some 25000000000 } } (by decide)
  have hg : prev_gold .realTime
      [{ name := "A", bestSegments := { realTime := some 10000000000 } },
       { name := "B", bestSegments := { realTime := some 25000000000 } }] 1
      = 10000000000 :=
    h.2.2.1 0 10000000000 (by decide) (by decide) (by decide)
      (fun j hj1 hj2 => absurd hj2 (by omega))
  refine ⟨?_, hg⟩
  rw [h.2.1, hg]
  decide

/-- C8: the displayed split time of a row is exactly the formatted
"Personal Best" comparison time of the segment under the active timing
method, and is the empty string when that time is absent. -/
theorem c8_split_time_display (m : TimingMethod)
    (fmt_span fmt_dur : Int → String) (segments : List Segment) (i : Nat)
    (segment : Segment) (hseg : segments.get? i = some segment) :
    (∀ t, segment.comparison_timing_method "Personal Best" m = some t →
      (compute_row_values m fmt_span fmt_dur segments i segment).2.1 = fmt_span t)
    ∧ (segment.comparison_timing_method "Personal Best" m = none →
      (compute_row_values m fmt_span fmt_dur segments i segment).2.1 = "") := by
  constructor
  · intro t ht
    simp [compute_row_values, ht]
  · intro ht
    simp [compute_row_values, ht]

/-- C8 (witness): a present 10 s PB is displayed through the formatter;
an absent PB yields the empty string. -/
theorem c8_split_time_display_witness :
    (compute_row_values .realTime toString toString
        [{ name := "A", personalBest := { realTime := some 10000000000 } },
         { name := "B" }] 0
        { name := "A", personalBest := { realTime := some 10000000000 } }).2.1
      = toString (10000000000 : Int)
    ∧ (compute_row_values .gameTime toString toString
        [{ name := "A", personalBest := { realTime := some 10000000000 } },
         { name := "B" }] 0
        { name := "A", personalBest := { realTime := some 10000000000 } }).2.1
      = "" := by
  constructor
  · exact (c8_split_time_display .realTime toString toString
      [{ name := "A", personalBest := { realTime := some 10000000000 } },
       { name := "B" }] 0
      { name := "A", personalBest := { realTime := some 10000000000 } }
      (by decide)).1 10000000000 (by decide)
  · exact (c8_split_time_display .gameTime toString toString
      [{ name := "A", personalBest := { realTime := some 10000000000 } },
       { name := "B" }] 0
      { name := "A", personalBest := { realTime := some 10000000000 } }
      (by decide)).2 (by decide)

end TuxSplit
